import Mathlib

/-!
Verification of the forecast-visualization script `forcast.py`.

The script loads a tabular forecast dataset, filters it to one selected
Area, computes a forecast-start boundary date, melts the four series
columns into long form and renders a layered chart (confidence band,
series lines, optional vertical rule).  Rows are embedded as a Lean
structure, dataframes as lists of rows, and the chart as an ordered list
of layers mirroring the layering expression `ci_band + lines (+ v_line)`.
Dates are embedded as naturals (only their order matters); numeric cell
values as `Option Int` (`none` is pandas NaN).
-/

namespace Forcast

/-- One row of the loaded dataframe, after `Date` parsing.  Field names
follow the CSV column names used by `forcast.py`. -/
structure Row where
  Area : String
  Date : Nat
  Actual : Option Int
  Prophet_Train_Fitted : Option Int
  Prophet_Forecast : Option Int
  Auto_arima_forcasted : Option Int
  Lower_95_CI : Option Int
  Upper_95_CI : Option Int
deriving Repr, DecidableEq

/-- One row of the melted (long-form) dataframe `df_melted`:
the id columns `Area, Date, Lower_95_CI, Upper_95_CI` plus the
`Series`/`Value` pair produced by `pandas.melt`. -/
structure LongRow where
  Area : String
  Date : Nat
  Lower_95_CI : Option Int
  Upper_95_CI : Option Int
  Series : String
  Value : Option Int
deriving Repr, DecidableEq

/-! ### Loader (`load_data`, forcast.py lines 8-24)

`pd.read_csv` under one encoding is abstracted as an outcome: a raw
table, a `UnicodeDecodeError`, or any other exception (e.g.
`FileNotFoundError`).  A raw table records whether a `Date` column is
present and, per row, the result of date parsing (`none` = malformed). -/

/-- A raw row as read from the file, before `pd.to_datetime`:
`rawDate = none` models a malformed date value. -/
structure RawRow where
  Area : String
  rawDate : Option Nat
  Actual : Option Int
  Prophet_Train_Fitted : Option Int
  Prophet_Forecast : Option Int
  Auto_arima_forcasted : Option Int
  Lower_95_CI : Option Int
  Upper_95_CI : Option Int
deriving Repr, DecidableEq

/-- A raw table as returned by a successful `pd.read_csv`. -/
structure RawTable where
  hasDateColumn : Bool
  rows : List RawRow
deriving Repr, DecidableEq

/-- Outcome of one `pd.read_csv(file_path, encoding=...)` attempt. -/
inductive ReadResult where
  | ok (t : RawTable)
  | decodeError
  | otherError (e : String)
deriving Repr, DecidableEq

/-- A file path is characterized by how `pd.read_csv` behaves on it
under each of the two encodings the script tries. -/
structure FileModel where
  utf8 : ReadResult
  latin1 : ReadResult
deriving Repr, DecidableEq

/-- Observable outcome of `load_data`: a returned dataframe, the
`st.error`-plus-empty-dataframe path, or an uncaught exception. -/
inductive LoadResult where
  | table (rows : List Row)
  | emptyWithError (msg : String)
  | raises (e : String)
deriving Repr, DecidableEq

/-- Date parsing of one raw row (the per-cell effect of
`pd.to_datetime(df['Date'])`). -/
def parseRow (r : RawRow) : Option Row :=
  r.rawDate.map fun d =>
    { Area := r.Area, Date := d, Actual := r.Actual,
      Prophet_Train_Fitted := r.Prophet_Train_Fitted,
      Prophet_Forecast := r.Prophet_Forecast,
      Auto_arima_forcasted := r.Auto_arima_forcasted,
      Lower_95_CI := r.Lower_95_CI, Upper_95_CI := r.Upper_95_CI }

/-- The statement `df['Date'] = pd.to_datetime(df['Date'])` (forcast.py
line 23): raises a `KeyError` if the column is missing and a parse error
if any date is malformed; both sit outside every `try` block. -/
def parseDates (t : RawTable) : LoadResult :=
  if t.hasDateColumn then
    if t.rows.all (fun r => r.rawDate.isSome) then
      LoadResult.table (t.rows.filterMap parseRow)
    else LoadResult.raises "DateParseError"
  else LoadResult.raises "KeyError: Date"

/-- `load_data` (forcast.py lines 8-24).  The outer `except` clause
catches only `UnicodeDecodeError` from the first `read_csv`; the inner
`except Exception` catches any failure of the latin-1 retry and returns
an empty dataframe after `st.error`.  `pd.to_datetime` runs outside both
handlers. -/
def load_data (f : FileModel) : LoadResult :=
  match f.utf8 with
  | ReadResult.ok t => parseDates t
  | ReadResult.otherError e => LoadResult.raises e
  | ReadResult.decodeError =>
    match f.latin1 with
    | ReadResult.ok t => parseDates t
    | ReadResult.decodeError =>
        LoadResult.emptyWithError "could not load the file using standard encodings"
    | ReadResult.otherError e => LoadResult.emptyWithError e

/-- The raw table the loader ends up parsing, if any read attempt that
the control flow reaches succeeds. -/
def effectiveTable (f : FileModel) : Option RawTable :=
  match f.utf8 with
  | ReadResult.ok t => some t
  | ReadResult.otherError _ => none
  | ReadResult.decodeError =>
    match f.latin1 with
    | ReadResult.ok t => some t
    | _ => none

/-! ### Selector (forcast.py lines 36-43) -/

/-- `sorted(df['Area'].unique())` (forcast.py line 36): the distinct
Area values in ascending order.  `dedup` models `unique()` (membership
is what matters after sorting) and `insertionSort` the stable `sorted`. -/
def all_areas (df : List Row) : List String :=
  List.insertionSort (fun a b => a ≤ b) ((df.map (fun r => r.Area)).dedup)

/-- The value of the `selectbox` with `index=0`: the first entry of
`all_areas`, i.e. the default selection (forcast.py lines 39-43). -/
def selected_area (df : List Row) : Option String :=
  (all_areas df).head?

/-! ### Transformer (forcast.py lines 49-75, 94) -/

/-- `df[df['Area'] == selected_area]` (forcast.py line 49). -/
def df_filtered (df : List Row) (a : String) : List Row :=
  df.filter (fun r => r.Area == a)

/-- The `Date` values of the rows whose `Prophet_Forecast` is not NaN
(`forecast_start_date_series`, forcast.py line 53). -/
def forecast_dates (dfF : List Row) : List Nat :=
  (dfF.filter (fun r => r.Prophet_Forecast.isSome)).map (fun r => r.Date)

/-- Minimum of a list of dates (pandas `Series.min`); `none` on empty. -/
def minD : List Nat → Option Nat
  | [] => none
  | x :: xs =>
    match minD xs with
    | none => some x
    | some m => some (min x m)

/-- Maximum of a list of dates (pandas `Series.max`); `none` on empty. -/
def maxD : List Nat → Option Nat
  | [] => none
  | x :: xs =>
    match maxD xs with
    | none => some x
    | some m => some (max x m)

/-- `min_forecast_date` (forcast.py line 59): earliest date with a
non-missing `Prophet_Forecast` in the filtered rows. -/
def min_forecast_date (dfF : List Row) : Option Nat :=
  minD (forecast_dates dfF)

/-- `forecast_start_date` (forcast.py lines 55-66): `None` when no
forecast values exist; otherwise the latest date strictly before the
earliest forecast date, falling back to that earliest forecast date
itself when no strictly earlier date exists. -/
def forecast_start_date (dfF : List Row) : Option Nat :=
  match min_forecast_date dfF with
  | none => none
  | some m =>
    match maxD ((dfF.filter (fun r => r.Date < m)).map (fun r => r.Date)) with
    | some p => some p
    | none => some m

/-- The four `value_vars` of the melt (`melt_cols`, forcast.py line 69). -/
def melt_cols : List String :=
  ["Actual", "Prophet_Train_Fitted", "Prophet_Forecast", "Auto_arima_forcasted"]

/-- The wide-column value a given series name reads from a row. -/
def seriesValue (r : Row) (s : String) : Option Int :=
  if s = "Actual" then r.Actual
  else if s = "Prophet_Train_Fitted" then r.Prophet_Train_Fitted
  else if s = "Prophet_Forecast" then r.Prophet_Forecast
  else if s = "Auto_arima_forcasted" then r.Auto_arima_forcasted
  else none

/-- One block of the melt: every row contributes one long-form row for
the series named `s`, carrying the id columns through unchanged. -/
def meltOne (dfF : List Row) (s : String) : List LongRow :=
  dfF.map fun r =>
    { Area := r.Area, Date := r.Date, Lower_95_CI := r.Lower_95_CI,
      Upper_95_CI := r.Upper_95_CI, Series := s, Value := seriesValue r s }

/-- `df_melted` (forcast.py lines 70-75): `pandas.melt` with id columns
`Area, Date, Lower_95_CI, Upper_95_CI` stacks one block per entry of
`value_vars`, in order. -/
def df_melted (dfF : List Row) : List LongRow :=
  meltOne dfF "Actual" ++ meltOne dfF "Prophet_Train_Fitted" ++
    meltOne dfF "Prophet_Forecast" ++ meltOne dfF "Auto_arima_forcasted"

/-- `df_ci = df_filtered.dropna(subset=['Prophet_Forecast'])`
(forcast.py line 94). -/
def df_ci (dfF : List Row) : List Row :=
  dfF.filter (fun r => r.Prophet_Forecast.isSome)

/-- The Transformer output as one value: filtered rows, forecast start
date, long-form rows and confidence-band subset. -/
def transform (df : List Row) (a : String) :
    List Row × Option Nat × List LongRow × List Row :=
  (df_filtered df a, forecast_start_date (df_filtered df a),
    df_melted (df_filtered df a), df_ci (df_filtered df a))

/-! ### Renderer (forcast.py lines 95-129) -/

/-- The stroke-dash encoding of the line marks (forcast.py lines
107-111): dashed `[5, 5]` for the two forecast series, solid `[1, 0]`
otherwise. -/
def strokeDash (s : String) : List Nat :=
  if ["Prophet_Forecast", "Auto_arima_forcasted"].contains s then [5, 5]
  else [1, 0]

/-- One layer of the composed Altair chart.  The `lines` layer records
its data and the field its `color` encoding groups by. -/
inductive Layer where
  | ciBand (data : List Row)
  | lines (data : List LongRow) (colorField : String)
  | vRule (Date : Nat)
deriving Repr, DecidableEq

/-- The layered chart (forcast.py lines 116-129): the band drawn first,
the lines on top of it, and — only when `forecast_start_date` is not
`None` — the vertical rule last. -/
def chart (dfF : List Row) : List Layer :=
  match forecast_start_date dfF with
  | some d =>
    [Layer.ciBand (df_ci dfF), Layer.lines (df_melted dfF) "Series", Layer.vRule d]
  | none =>
    [Layer.ciBand (df_ci dfF), Layer.lines (df_melted dfF) "Series"]

/-- Whether the rendered chart contains a vertical forecast-start rule. -/
def hasVRule (layers : List Layer) : Bool :=
  layers.any fun l =>
    match l with
    | Layer.vRule _ => true
    | _ => false

/-! ### Example tables used by witnesses and counterexamples -/

/-- A historical row of Area North (no forecast yet). -/
def exRow1 : Row :=
  { Area := "North", Date := 1, Actual := some 10,
    Prophet_Train_Fitted := some 9, Prophet_Forecast := none,
    Auto_arima_forcasted := none, Lower_95_CI := none, Upper_95_CI := none }

/-- A forecast row of Area North. -/
def exRow2 : Row :=
  { Area := "North", Date := 2, Actual := none,
    Prophet_Train_Fitted := none, Prophet_Forecast := some 12,
    Auto_arima_forcasted := some 11, Lower_95_CI := some 8,
    Upper_95_CI := some 15 }

/-- A row of Area South with no forecast values. -/
def exRow3 : Row :=
  { Area := "South", Date := 1, Actual := some 7,
    Prophet_Train_Fitted := some 6, Prophet_Forecast := none,
    Auto_arima_forcasted := none, Lower_95_CI := none, Upper_95_CI := none }

/-- A small concrete table with two Areas. -/
def exDf : List Row := [exRow1, exRow2, exRow3]

/-- A one-row table whose single row already carries a forecast value,
so no date strictly earlier than the first forecast date exists. -/
def exSoloDf : List Row :=
  [{ Area := "A", Date := 5, Actual := none,
     Prophet_Train_Fitted := none, Prophet_Forecast := some 1,
     Auto_arima_forcasted := none, Lower_95_CI := some 0,
     Upper_95_CI := some 2 }]

/-! ### Helper lemmas about minD and maxD -/

theorem minD_eq_none_iff (l : List Nat) : minD l = none ↔ l = [] := by
  cases l with
  | nil => simp [minD]
  | cons x xs =>
    simp only [minD]
    cases h : minD xs <;> simp

theorem minD_mem {l : List Nat} {m : Nat} (h : minD l = some m) : m ∈ l := by
  induction l with
  | nil => simp [minD] at h
  | cons x xs ih =>
    simp only [minD] at h
    cases hx : minD xs with
    | none =>
      rw [hx] at h
      simp only [Option.some.injEq] at h
      subst h
      exact List.mem_cons_self x xs
    | some k =>
      rw [hx] at h
      simp only [Option.some.injEq] at h
      rcases le_total x k with hle | hle
      · rw [min_eq_left hle] at h
        subst h
        exact List.mem_cons_self x xs
      · rw [min_eq_right hle] at h
        subst h
        exact List.mem_cons_of_mem x (ih hx)

theorem minD_le {l : List Nat} {m : Nat} (h : minD l = some m) :
    ∀ x ∈ l, m ≤ x := by
  induction l generalizing m with
  | nil => simp [minD] at h
  | cons y ys ih =>
    simp only [minD] at h
    cases hy : minD ys with
    | none =>
      rw [hy] at h
      simp only [Option.some.injEq] at h
      have hnil : ys = [] := (minD_eq_none_iff ys).mp hy
      subst h
      subst hnil
      intro x hx
      rcases List.mem_cons.mp hx with rfl | hx2
      · exact Nat.le_refl _
      · simp at hx2
    | some k =>
      rw [hy] at h
      simp only [Option.some.injEq] at h
      intro x hx
      rcases List.mem_cons.mp hx with rfl | hx2
      · exact h ▸ min_le_left x k
      · exact h ▸ le_trans (min_le_right y k) (ih hy x hx2)

theorem maxD_eq_none_iff (l : List Nat) : maxD l = none ↔ l = [] := by
  cases l with
  | nil => simp [maxD]
  | cons x xs =>
    simp only [maxD]
    cases h : maxD xs <;> simp

theorem maxD_mem {l : List Nat} {m : Nat} (h : maxD l = some m) : m ∈ l := by
  induction l with
  | nil => simp [maxD] at h
  | cons x xs ih =>
    simp only [maxD] at h
    cases hx : maxD xs with
    | none =>
      rw [hx] at h
      simp only [Option.some.injEq] at h
      subst h
      exact List.mem_cons_self x xs
    | some k =>
      rw [hx] at h
      simp only [Option.some.injEq] at h
      rcases le_total x k with hle | hle
      · rw [max_eq_right hle] at h
        subst h
        exact List.mem_cons_of_mem x (ih hx)
      · rw [max_eq_left hle] at h
        subst h
        exact List.mem_cons_self x xs

theorem le_maxD {l : List Nat} {m : Nat} (h : maxD l = some m) :
    ∀ x ∈ l, x ≤ m := by
  induction l generalizing m with
  | nil => simp [maxD] at h
  | cons y ys ih =>
    simp only [maxD] at h
    cases hy : maxD ys with
    | none =>
      rw [hy] at h
      simp only [Option.some.injEq] at h
      have hnil : ys = [] := (maxD_eq_none_iff ys).mp hy
      subst h
      subst hnil
      intro x hx
      rcases List.mem_cons.mp hx with rfl | hx2
      · exact Nat.le_refl _
      · simp at hx2
    | some k =>
      rw [hy] at h
      simp only [Option.some.injEq] at h
      intro x hx
      rcases List.mem_cons.mp hx with rfl | hx2
      · exact h ▸ le_max_left x k
      · exact h ▸ le_trans (ih hy x hx2) (le_max_right y k)

theorem minD_isSome_of_ne_nil {l : List Nat} (h : l ≠ []) :
    ∃ m, minD l = some m := by
  cases hm : minD l with
  | none => exact absurd ((minD_eq_none_iff l).mp hm) h
  | some m => exact ⟨m, rfl⟩

/-! ### Helper lemmas about the loader -/

theorem parseDates_raises_iff (t : RawTable) :
    (∃ e, parseDates t = LoadResult.raises e) ↔
      (t.hasDateColumn = false ∨
        t.rows.all (fun r => r.rawDate.isSome) = false) := by
  simp only [parseDates]
  split
  next h1 =>
    split
    next h2 => simp_all [Option.isSome_iff_ne_none]
    next h2 => simp_all
  next h1 => simp_all

theorem parseDates_ne_empty (t : RawTable) (m : String) :
    parseDates t ≠ LoadResult.emptyWithError m := by
  simp only [parseDates]
  split
  next h1 =>
    split
    next h2 => simp_all
    next h2 => simp_all
  next h1 => simp_all

theorem parseDates_table_iff (t : RawTable) (rows : List Row) :
    parseDates t = LoadResult.table rows ↔
      (t.hasDateColumn = true ∧
        t.rows.all (fun r => r.rawDate.isSome) = true ∧
        rows = t.rows.filterMap parseRow) := by
  simp only [parseDates]
  split
  next h1 =>
    split
    next h2 =>
      simp_all
      constructor
      · intro h
        exact h.symm
      · intro h
        exact h.symm
    next h2 => simp_all
  next h1 => simp_all

theorem filterMap_parseRow_length (rows : List RawRow)
    (h : rows.all (fun r => r.rawDate.isSome) = true) :
    (rows.filterMap parseRow).length = rows.length := by
  induction rows with
  | nil => rfl
  | cons r rs ih =>
    simp only [List.all_cons, Bool.and_eq_true] at h
    obtain ⟨h1, h2⟩ := h
    cases hr : r.rawDate with
    | none => simp [hr] at h1
    | some d => simp [List.filterMap_cons, parseRow, hr, ih h2]

/-! ### Helper lemmas about the melt -/

theorem meltOne_filter_same (dfF : List Row) (s : String) :
    (meltOne dfF s).filter (fun lr => lr.Series == s) = meltOne dfF s := by
  apply List.filter_eq_self.mpr
  intro lr hlr
  rcases List.mem_map.mp hlr with ⟨r, _, rfl⟩
  simp

theorem meltOne_filter_other (dfF : List Row) (s t : String) (h : s ≠ t) :
    (meltOne dfF s).filter (fun lr => lr.Series == t) = [] := by
  apply List.filter_eq_nil_iff.mpr
  intro lr hlr
  rcases List.mem_map.mp hlr with ⟨r, _, rfl⟩
  simp [h]

theorem meltOne_filter (dfF : List Row) (s t : String) :
    (meltOne dfF s).filter (fun lr => lr.Series == t) =
      if s = t then meltOne dfF s else [] := by
  by_cases h : s = t
  · subst h
    simp [meltOne_filter_same]
  · simp only [if_neg h]
    exact meltOne_filter_other dfF s t h

theorem meltOne_length (dfF : List Row) (s : String) :
    (meltOne dfF s).length = dfF.length := by
  simp [meltOne]

theorem mem_meltOne {dfF : List Row} {s : String} {lr : LongRow}
    (h : lr ∈ meltOne dfF s) :
    ∃ r ∈ dfF, lr.Area = r.Area ∧ lr.Date = r.Date ∧
      lr.Lower_95_CI = r.Lower_95_CI ∧ lr.Upper_95_CI = r.Upper_95_CI ∧
      lr.Series = s ∧ lr.Value = seriesValue r s := by
  rcases List.mem_map.mp h with ⟨r, hr, rfl⟩
  exact ⟨r, hr, rfl, rfl, rfl, rfl, rfl, rfl⟩

/-! ### Helper lemmas about the forecast start date and the chart -/

theorem mem_forecast_dates (dfF : List Row) (x : Nat) :
    x ∈ forecast_dates dfF ↔
      ∃ r ∈ dfF, r.Prophet_Forecast.isSome = true ∧ r.Date = x := by
  simp only [forecast_dates, List.mem_map, List.mem_filter]
  constructor
  · rintro ⟨r, ⟨hr, hp⟩, rfl⟩
    exact ⟨r, hr, hp, rfl⟩
  · rintro ⟨r, hr, hp, rfl⟩
    exact ⟨r, ⟨hr, hp⟩, rfl⟩

theorem mem_earlier_dates (dfF : List Row) (m x : Nat) :
    x ∈ (dfF.filter (fun r => r.Date < m)).map (fun r => r.Date) ↔
      ∃ r ∈ dfF, r.Date = x ∧ x < m := by
  simp only [List.mem_map, List.mem_filter, decide_eq_true_eq]
  constructor
  · rintro ⟨r, ⟨hr, hlt⟩, rfl⟩
    exact ⟨r, hr, rfl, hlt⟩
  · rintro ⟨r, hr, rfl, hlt⟩
    exact ⟨r, ⟨hr, hlt⟩, rfl⟩

theorem forecast_start_date_none {dfF : List Row}
    (h : min_forecast_date dfF = none) :
    forecast_start_date dfF = none := by
  rw [forecast_start_date, h]

theorem forecast_start_date_some_max {dfF : List Row} {m p : Nat}
    (hm : min_forecast_date dfF = some m)
    (hp : maxD ((dfF.filter (fun r => r.Date < m)).map (fun r => r.Date))
      = some p) :
    forecast_start_date dfF = some p := by
  rw [forecast_start_date, hm]
  simp only [hp]

theorem forecast_start_date_some_min {dfF : List Row} {m : Nat}
    (hm : min_forecast_date dfF = some m)
    (hnil : dfF.filter (fun r => r.Date < m) = []) :
    forecast_start_date dfF = some m := by
  rw [forecast_start_date, hm]
  simp only [hnil, List.map_nil]
  rfl

theorem chart_some {dfF : List Row} {d : Nat}
    (h : forecast_start_date dfF = some d) :
    chart dfF = [Layer.ciBand (df_ci dfF),
      Layer.lines (df_melted dfF) "Series", Layer.vRule d] := by
  rw [chart, h]

theorem chart_none {dfF : List Row}
    (h : forecast_start_date dfF = none) :
    chart dfF = [Layer.ciBand (df_ci dfF),
      Layer.lines (df_melted dfF) "Series"] := by
  rw [chart, h]

/-! ### Claim theorems -/

/-- Claim C3: for every table and every Area present in it, filtering to
the Area and melting yields exactly 4 long-form rows per filtered row
(one per series of `melt_cols`), and every long-form row carries the
`Lower_95_CI` and `Upper_95_CI` values (and `Area`, `Date`, and wide
value) of its originating row unchanged. -/
theorem C3_melt_shape (df : List Row) (a : String) :
    (df_melted (df_filtered df a)).length = 4 * (df_filtered df a).length ∧
    (∀ s ∈ melt_cols,
      ((df_melted (df_filtered df a)).filter
        (fun lr => lr.Series == s)).length = (df_filtered df a).length) ∧
    (∀ lr ∈ df_melted (df_filtered df a),
      ∃ r ∈ df_filtered df a,
        lr.Area = r.Area ∧ lr.Date = r.Date ∧
        lr.Lower_95_CI = r.Lower_95_CI ∧ lr.Upper_95_CI = r.Upper_95_CI ∧
        lr.Value = seriesValue r lr.Series) := by
  refine ⟨?_, ?_, ?_⟩
  · simp only [df_melted, List.length_append, meltOne_length]
    ring
  · intro s hs
    simp only [melt_cols, List.mem_cons, List.not_mem_nil, or_false] at hs
    rcases hs with rfl | rfl | rfl | rfl <;>
      simp [df_melted, List.filter_append, meltOne_filter, meltOne_length]
  · intro lr hlr
    simp only [df_melted, List.mem_append] at hlr
    rcases hlr with ((h | h) | h) | h <;>
      · rcases mem_meltOne h with ⟨r, hr, h1, h2, h3, h4, h5, h6⟩
        refine ⟨r, hr, h1, h2, h3, h4, ?_⟩
        rw [h5]
        exact h6

/-- Claim C3 witness: the melt shape facts evaluated on the concrete
table `exDf` with Area North. -/
theorem C3_witness :
    (df_melted (df_filtered exDf "North")).length =
      4 * (df_filtered exDf "North").length ∧
    ((df_melted (df_filtered exDf "North")).filter
      (fun lr => lr.Series == "Actual")).length =
      (df_filtered exDf "North").length :=
  ⟨(C3_melt_shape exDf "North").1,
    (C3_melt_shape exDf "North").2.1 "Actual" (by decide)⟩

/-- Claim C10: every row of the filtered table, every melted long-form
row, and every row of the confidence-band subset has its Area equal to
the selected Area. -/
theorem C10_area_invariant (df : List Row) (a : String) :
    (∀ r ∈ df_filtered df a, r.Area = a) ∧
    (∀ lr ∈ df_melted (df_filtered df a), lr.Area = a) ∧
    (∀ r ∈ df_ci (df_filtered df a), r.Area = a) := by
  have h1 : ∀ r ∈ df_filtered df a, r.Area = a := by
    intro r hr
    have h2 := List.mem_filter.mp hr
    simpa using h2.2
  refine ⟨h1, ?_, ?_⟩
  · intro lr hlr
    simp only [df_melted, List.mem_append] at hlr
    rcases hlr with ((h | h) | h) | h <;>
      · rcases mem_meltOne h with ⟨r, hr, hA, _⟩
        rw [hA]
        exact h1 r hr
  · intro r hr
    exact h1 r (List.mem_filter.mp hr).1

/-- Claim C10 witness: the invariant evaluated on the concrete table
`exDf` with Area North and row `exRow2`. -/
theorem C10_witness :
    exRow2 ∈ df_filtered exDf "North" ∧ exRow2.Area = "North" :=
  ⟨by decide, (C10_area_invariant exDf "North").1 exRow2 (by decide)⟩

/-- Claim C6: the Transformer is a pure function of the table and the
selected Area: running it twice gives identical output, and the
underlying Area filter is idempotent (filtering an already filtered
table changes nothing, mirroring that the input table is not modified). -/
theorem C6_transform_pure (df : List Row) (a : String) :
    transform df a = transform df a ∧
    df_filtered (df_filtered df a) a = df_filtered df a := by
  refine ⟨rfl, ?_⟩
  simp [df_filtered, List.filter_filter]

/-- Claim C5: the confidence-band subset is exactly the filtered rows
whose `Prophet_Forecast` is present; when no such row exists the band
data is empty and no vertical rule layer appears in the chart (and the
chart is still built, not an error). -/
theorem C5_ci_band (df : List Row) (a : String) :
    (∀ r, r ∈ df_ci (df_filtered df a) ↔
      (r ∈ df_filtered df a ∧ r.Prophet_Forecast.isSome = true)) ∧
    ((∀ r ∈ df_filtered df a, r.Prophet_Forecast = none) →
      df_ci (df_filtered df a) = [] ∧
      ∀ d, Layer.vRule d ∉ chart (df_filtered df a)) := by
  constructor
  · intro r
    simp [df_ci, List.mem_filter]
  · intro hno
    have hci : df_ci (df_filtered df a) = [] := by
      apply List.filter_eq_nil_iff.mpr
      intro r hr
      simp [hno r hr]
    have hfd : forecast_dates (df_filtered df a) = [] := by
      rw [show forecast_dates (df_filtered df a)
            = (df_ci (df_filtered df a)).map (fun r => r.Date) from rfl, hci]
      rfl
    have hmin : min_forecast_date (df_filtered df a) = none := by
      rw [min_forecast_date, hfd]
      rfl
    have hfsd : forecast_start_date (df_filtered df a) = none := by
      rw [forecast_start_date, hmin]
    refine ⟨hci, ?_⟩
    intro d
    rw [chart, hfsd]
    simp

/-- Claim C5 witness: on the concrete table `exDf`, Area South has no
forecast values, so its band subset is empty and its chart has no
vertical rule. -/
theorem C5_witness :
    df_ci (df_filtered exDf "South") = [] ∧
    ∀ d, Layer.vRule d ∉ chart (df_filtered exDf "South") :=
  (C5_ci_band exDf "South").2 (by decide)

/-- Claim C1 counterexample: on the one-row table `exSoloDf`, Area A has
a non-missing Prophet_Forecast (minimum forecast Date 5) and no Date
strictly earlier than 5, so the claim says the forecast start date is
undefined and no marker is drawn; the code instead computes start date 5
and draws the vertical marker. -/
theorem C1_counterexample :
    min_forecast_date (df_filtered exSoloDf "A") = some 5 ∧
    (df_filtered exSoloDf "A").filter (fun r => r.Date < 5) = [] ∧
    forecast_start_date (df_filtered exSoloDf "A") = some 5 ∧
    hasVRule (chart (df_filtered exSoloDf "A")) = true := by
  decide

/-- Claim C1 (amended): if the filtered rows have no Prophet_Forecast
value, the forecast start date is undefined and no marker is drawn; if
they do, with minimum forecast Date m (characterized below), then when a
Date strictly earlier than m exists the start date is the maximum such
Date, and when none exists the start date is m itself; whenever the
start date is defined the vertical marker is drawn at it. -/
theorem C1_forecast_start (df : List Row) (a : String) :
    (min_forecast_date (df_filtered df a) = none →
      forecast_start_date (df_filtered df a) = none ∧
      hasVRule (chart (df_filtered df a)) = false) ∧
    (∀ m, min_forecast_date (df_filtered df a) = some m →
      ((∃ r ∈ df_filtered df a,
          r.Prophet_Forecast.isSome = true ∧ r.Date = m) ∧
        (∀ r ∈ df_filtered df a,
          r.Prophet_Forecast.isSome = true → m ≤ r.Date)) ∧
      (∀ p, maxD (((df_filtered df a).filter
          (fun r => r.Date < m)).map (fun r => r.Date)) = some p →
        forecast_start_date (df_filtered df a) = some p ∧
        (∃ r ∈ df_filtered df a, r.Date = p ∧ p < m) ∧
        (∀ r ∈ df_filtered df a, r.Date < m → r.Date ≤ p)) ∧
      ((df_filtered df a).filter (fun r => r.Date < m) = [] →
        forecast_start_date (df_filtered df a) = some m)) ∧
    (∀ d, forecast_start_date (df_filtered df a) = some d →
      Layer.vRule d ∈ chart (df_filtered df a)) := by
  refine ⟨?_, ?_, ?_⟩
  · intro hmin
    have hfsd := forecast_start_date_none hmin
    refine ⟨hfsd, ?_⟩
    rw [chart_none hfsd]
    rfl
  · intro m hm
    refine ⟨⟨?_, ?_⟩, ?_, ?_⟩
    · exact (mem_forecast_dates _ m).mp (minD_mem hm)
    · intro r hr hp
      exact minD_le hm r.Date
        ((mem_forecast_dates _ r.Date).mpr ⟨r, hr, hp, rfl⟩)
    · intro p hp
      refine ⟨forecast_start_date_some_max hm hp, ?_, ?_⟩
      · exact (mem_earlier_dates _ m p).mp (maxD_mem hp)
      · intro r hr hlt
        exact le_maxD hp r.Date
          ((mem_earlier_dates _ m r.Date).mpr ⟨r, hr, rfl, hlt⟩)
    · intro hnil
      exact forecast_start_date_some_min hm hnil
  · intro d hd
    rw [chart_some hd]
    simp

/-- Claim C1 witness: on `exDf`, Area North, the minimum forecast Date
is 2 and the latest strictly earlier Date is 1, so the forecast start
date is 1 and the marker is drawn there. -/
theorem C1_witness :
    forecast_start_date (df_filtered exDf "North") = some 1 ∧
    Layer.vRule 1 ∈ chart (df_filtered exDf "North") := by
  have h1 :=
    (((C1_forecast_start exDf "North").2.1 2 (by decide)).2.1 1 (by decide)).1
  exact ⟨h1, (C1_forecast_start exDf "North").2.2 1 h1⟩

/-- Claim C9: when the filtered rows contain a forecast value whose
minimum forecast Date m has no strictly earlier Date among the filtered
rows, the vertical marker is placed at m itself; consequently a marker
is drawn whenever any Prophet_Forecast value is present. -/
theorem C9_marker_fallback (df : List Row) (a : String) :
    (∀ m, min_forecast_date (df_filtered df a) = some m →
      (∀ r ∈ df_filtered df a, ¬ r.Date < m) →
      forecast_start_date (df_filtered df a) = some m ∧
        Layer.vRule m ∈ chart (df_filtered df a)) ∧
    ((∃ r ∈ df_filtered df a, r.Prophet_Forecast.isSome = true) →
      ∃ d, Layer.vRule d ∈ chart (df_filtered df a)) := by
  constructor
  · intro m hm hno
    have hnil : (df_filtered df a).filter (fun r => r.Date < m) = [] := by
      apply List.filter_eq_nil_iff.mpr
      intro r hr
      simpa using hno r hr
    have hfsd := forecast_start_date_some_min hm hnil
    refine ⟨hfsd, ?_⟩
    rw [chart_some hfsd]
    simp
  · rintro ⟨r, hr, hp⟩
    have hne : forecast_dates (df_filtered df a) ≠ [] :=
      List.ne_nil_of_mem ((mem_forecast_dates _ r.Date).mpr ⟨r, hr, hp, rfl⟩)
    obtain ⟨m, hm⟩ := minD_isSome_of_ne_nil hne
    have hm2 : min_forecast_date (df_filtered df a) = some m := hm
    cases hp2 : maxD (((df_filtered df a).filter
        (fun r => r.Date < m)).map (fun r => r.Date)) with
    | some p =>
      refine ⟨p, ?_⟩
      rw [chart_some (forecast_start_date_some_max hm2 hp2)]
      simp
    | none =>
      have hmapnil := (maxD_eq_none_iff _).mp hp2
      have hnil : (df_filtered df a).filter (fun r => r.Date < m) = [] :=
        List.map_eq_nil_iff.mp hmapnil
      refine ⟨m, ?_⟩
      rw [chart_some (forecast_start_date_some_min hm2 hnil)]
      simp

/-- Claim C9 witness: on the one-row table `exSoloDf`, Area A, the
minimum forecast Date 5 has no earlier Date, and the marker is drawn at
5. -/
theorem C9_witness :
    forecast_start_date (df_filtered exSoloDf "A") = some 5 ∧
    Layer.vRule 5 ∈ chart (df_filtered exSoloDf "A") :=
  (C9_marker_fallback exSoloDf "A").1 5 (by decide) (by decide)

/-- Claim C7: for every non-empty loaded table, the Selector presents
the distinct Area values in sorted order (exactly the Areas occurring in
the table) and the default selection is the first entry, which is the
alphabetically least. -/
theorem C7_selector (df : List Row) (h : df ≠ []) :
    List.Sorted (fun a b => a ≤ b) (all_areas df) ∧
    (∀ x, x ∈ all_areas df ↔ ∃ r ∈ df, r.Area = x) ∧
    ∃ a0, selected_area df = some a0 ∧ a0 ∈ all_areas df ∧
      ∀ b ∈ all_areas df, a0 ≤ b := by
  have hsorted : List.Sorted (fun a b => a ≤ b) (all_areas df) :=
    List.sorted_insertionSort _ _
  have hmem : ∀ x, x ∈ all_areas df ↔ ∃ r ∈ df, r.Area = x := by
    intro x
    rw [all_areas, List.mem_insertionSort, List.mem_dedup, List.mem_map]
  refine ⟨hsorted, hmem, ?_⟩
  obtain ⟨r0, rest, rfl⟩ := List.exists_cons_of_ne_nil h
  have h0 : r0.Area ∈ all_areas (r0 :: rest) :=
    (hmem r0.Area).mpr ⟨r0, List.mem_cons_self _ _, rfl⟩
  cases hA : all_areas (r0 :: rest) with
  | nil =>
    rw [hA] at h0
    simp at h0
  | cons a0 as =>
    rw [hA] at hsorted
    refine ⟨a0, ?_, ?_, ?_⟩
    · rw [selected_area, hA]
      rfl
    · exact List.mem_cons_self _ _
    · intro b hb
      rcases List.mem_cons.mp hb with rfl | hb2
      · exact le_refl _
      · exact List.rel_of_sorted_cons hsorted b hb2

/-- Claim C7 witness: the Selector facts applied to the concrete table
`exDf` (Areas North and South). -/
theorem C7_witness : List.Sorted (fun a b => a ≤ b) (all_areas exDf) :=
  (C7_selector exDf (by decide)).1

/-- Claim C8: exactly the two forecast series receive the dashed stroke
pattern `[5, 5]` and every other series the solid pattern `[1, 0]`; the
lines layer is grouped and colored by the Series field and sits directly
above the confidence band in the layer order. -/
theorem C8_line_styles (dfF : List Row) :
    strokeDash "Prophet_Forecast" = [5, 5] ∧
    strokeDash "Auto_arima_forcasted" = [5, 5] ∧
    (∀ s, s ≠ "Prophet_Forecast" → s ≠ "Auto_arima_forcasted" →
      strokeDash s = [1, 0]) ∧
    (∃ rest, chart dfF =
      Layer.ciBand (df_ci dfF) ::
        Layer.lines (df_melted dfF) "Series" :: rest) := by
  refine ⟨by decide, by decide, ?_, ?_⟩
  · intro s h1 h2
    rw [strokeDash, if_neg]
    simp [h1, h2]
  · cases h : forecast_start_date dfF with
    | none => exact ⟨[], chart_none h⟩
    | some d => exact ⟨[Layer.vRule d], chart_some h⟩

/-- Claim C8 witness: the stroke-dash and layer-order facts evaluated on
the concrete filtered table for Area North. -/
theorem C8_witness :
    strokeDash "Actual" = [1, 0] ∧
    (∃ rest, chart (df_filtered exDf "North") =
      Layer.ciBand (df_ci (df_filtered exDf "North")) ::
        Layer.lines (df_melted (df_filtered exDf "North")) "Series" ::
          rest) :=
  ⟨(C8_line_styles (df_filtered exDf "North")).2.2.1 "Actual"
      (by decide) (by decide),
    (C8_line_styles (df_filtered exDf "North")).2.2.2⟩

/-- A file path on which the very first `pd.read_csv` raises something
other than a `UnicodeDecodeError` (here: the file does not exist). -/
def exBadFile : FileModel :=
  { utf8 := ReadResult.otherError "FileNotFoundError",
    latin1 := ReadResult.decodeError }

/-- Claim C2 counterexample: on a missing file, the first `read_csv`
raises `FileNotFoundError`, which the `except UnicodeDecodeError` clause
does not catch, so `load_data` raises past its boundary instead of
surfacing an error message and returning an empty table. -/
theorem C2_counterexample :
    load_data exBadFile = LoadResult.raises "FileNotFoundError" := rfl

/-- Claim C2 (amended): the Loader retries with latin-1 exactly on a
decoding failure of the default-encoding attempt and surfaces a
user-visible error with an empty table exactly when that retry also
fails; any non-decoding failure of the first attempt, a missing Date
column, or an unparseable Date value raises past the boundary. -/
theorem C2_load_boundary (f : FileModel) :
    ((∃ e, load_data f = LoadResult.raises e) ↔
      ((∃ e, f.utf8 = ReadResult.otherError e) ∨
        (∃ t, effectiveTable f = some t ∧
          (t.hasDateColumn = false ∨
            t.rows.all (fun r => r.rawDate.isSome) = false)))) ∧
    ((∃ m, load_data f = LoadResult.emptyWithError m) ↔
      (f.utf8 = ReadResult.decodeError ∧
        ∀ t, f.latin1 ≠ ReadResult.ok t)) := by
  obtain ⟨u, l⟩ := f
  cases u with
  | ok t =>
    constructor
    · simpa [load_data, effectiveTable] using parseDates_raises_iff t
    · constructor
      · rintro ⟨m, hm⟩
        exact absurd hm (parseDates_ne_empty t m)
      · rintro ⟨h1, -⟩
        simp at h1
  | decodeError =>
    cases l with
    | ok t =>
      constructor
      · simpa [load_data, effectiveTable] using parseDates_raises_iff t
      · constructor
        · rintro ⟨m, hm⟩
          exact absurd hm (parseDates_ne_empty t m)
        · rintro ⟨-, hne⟩
          exact absurd rfl (hne t)
    | decodeError =>
      constructor
      · simp [load_data, effectiveTable]
      · simp [load_data, effectiveTable]
    | otherError e =>
      constructor
      · simp [load_data, effectiveTable]
      · simp [load_data, effectiveTable]
  | otherError e =>
    constructor
    · simp [load_data, effectiveTable]
    · simp [load_data, effectiveTable]

/-- A raw table with a Date column but zero data rows, as `pd.read_csv`
returns for a header-only CSV file. -/
def exHeaderOnlyTable : RawTable := { hasDateColumn := true, rows := [] }

/-- A readable UTF-8 file containing only the header line. -/
def exHeaderOnlyFile : FileModel :=
  { utf8 := ReadResult.ok exHeaderOnlyTable,
    latin1 := ReadResult.decodeError }

/-- Claim C4 counterexample: a readable header-only file has a fully
parseable Date column, yet the Loader returns an empty table, so
readability plus a parseable Date column does not imply a non-empty
result. -/
theorem C4_counterexample :
    effectiveTable exHeaderOnlyFile = some exHeaderOnlyTable ∧
    exHeaderOnlyTable.hasDateColumn = true ∧
    exHeaderOnlyTable.rows.all (fun r => r.rawDate.isSome) = true ∧
    load_data exHeaderOnlyFile = LoadResult.table [] :=
  ⟨rfl, rfl, rfl, rfl⟩

/-- Claim C4 (amended): the Loader returns a non-empty table iff the
read the control flow reaches succeeds (default encoding, or latin-1
after a decoding failure), the table has a Date column whose values all
parse, and the file has at least one data row. -/
theorem C4_nonempty_iff (f : FileModel) :
    (∃ rows, load_data f = LoadResult.table rows ∧ rows ≠ []) ↔
      (∃ t, effectiveTable f = some t ∧ t.hasDateColumn = true ∧
        t.rows.all (fun r => r.rawDate.isSome) = true ∧ t.rows ≠ []) := by
  have key : ∀ t : RawTable,
      ((∃ rows, parseDates t = LoadResult.table rows ∧ rows ≠ []) ↔
        (t.hasDateColumn = true ∧
          t.rows.all (fun r => r.rawDate.isSome) = true ∧
          t.rows ≠ [])) := by
    intro t
    constructor
    · rintro ⟨rows, hrows, hne⟩
      obtain ⟨h1, h2, h3⟩ := (parseDates_table_iff t rows).mp hrows
      refine ⟨h1, h2, ?_⟩
      intro hnil
      apply hne
      rw [h3, hnil]
      rfl
    · rintro ⟨h1, h2, h3⟩
      refine ⟨t.rows.filterMap parseRow,
        (parseDates_table_iff t _).mpr ⟨h1, h2, rfl⟩, ?_⟩
      intro hnil
      apply h3
      have hl0 : t.rows.length = 0 := by
        have hl := filterMap_parseRow_length t.rows h2
        rw [hnil] at hl
        simpa using hl.symm
      exact List.length_eq_zero.mp hl0
  obtain ⟨u, l⟩ := f
  cases u with
  | ok t => simpa [load_data, effectiveTable] using key t
  | decodeError =>
    cases l with
    | ok t => simpa [load_data, effectiveTable] using key t
    | decodeError => simp [load_data, effectiveTable]
    | otherError e => simp [load_data, effectiveTable]
  | otherError e => simp [load_data, effectiveTable]

end Forcast
